import Mathlib

/-!
Verification of the configuration-resolution engine of the biggerquery
repository (src/biggerquery/configuration.py).

The Python module is embedded shallowly:

* Python dicts become ordered association lists (`lookupV`, `setAssoc`,
  `updateDict` reproduce dict lookup, item assignment and `dict.update`,
  all first-match with insertion order preserved).
* Property values become the closed variant `Value` (string, the
  absent-marker `None`, a string list, a string mapping), covering every
  value shape the repository stores.
* `os.environ` becomes an explicit `Environ` argument threaded through the
  operations that read it.
* Raising `ValueError` becomes `Except String`.
* Python `str.replace` becomes `pyReplace`, a left-to-right
  non-overlapping scanner on the character list (fuel-indexed by the
  length of the scanned string, which each step strictly decreases).

The external `InteractiveDatasetManager` collaborator is out of scope and
`create_dataset_manager` is therefore not modelled; every other method of
`Config` and `DatasetConfig` is.
-/

/-- Property values stored in an environment: a string, the absent-marker
(Python `None`), a list of strings (`internal_tables`) or a string mapping
(`external_tables`). -/
inductive Value where
  | str (s : String)
  | none
  | strlist (l : List String)
  | strmap (m : List (String × String))
deriving DecidableEq

/-- A Python dict from property keys to values, as an ordered association
list. -/
abbrev Dict := List (String × Value)

/-- The process environment (`os.environ`): variable name to value. -/
abbrev Environ := List (String × String)

/-- Dict lookup: the value at the first matching key (`d[k]` / `k in d`). -/
def lookupV {α : Type} : List (String × α) → String → Option α
  | [], _ => Option.none
  | (k, v) :: rest, key => if k = key then some v else lookupV rest key

/-- Dict item assignment `d[key] = v`: replace the value at an existing key
in place, else append the new binding. -/
def setAssoc {α : Type} : List (String × α) → String → α → List (String × α)
  | [], key, v => [(key, v)]
  | (k, w) :: rest, key, v =>
    if k = key then (key, v) :: rest else (k, w) :: setAssoc rest key v

/-- Python `d.update(o)`: assign every binding of `o` into `d`, in order. -/
def updateDict {α : Type} (d o : List (String × α)) : List (String × α) :=
  o.foldl (fun acc kv => setAssoc acc kv.1 kv.2) d

/-- Is the first list a prefix of the second (Boolean). -/
def isPre : List Char → List Char → Bool
  | [], _ => true
  | _ :: _, [] => false
  | a :: as, b :: bs => a == b && isPre as bs

/-- One scan of Python `s.replace(pat, rep)`: at each position, if `pat`
starts here, emit `rep` and continue after the occurrence, else keep one
character; occurrences are found left to right, non-overlapping, and the
emitted `rep` is never re-scanned within this call.  The fuel is the
length of the scanned string; every step consumes at least one character
(the call sites only pass nonempty brace-delimited patterns, for which the
`isEmpty` guard, present only for totality, is unreachable). -/
def replaceFuel (pat rep : List Char) : Nat → List Char → List Char
  | 0, s => s
  | _ + 1, [] => []
  | fuel + 1, c :: rest =>
    if pat.isEmpty then c :: rest
    else if isPre pat (c :: rest) then
      rep ++ replaceFuel pat rep fuel (List.drop pat.length (c :: rest))
    else c :: replaceFuel pat rep fuel rest

/-- Python `s.replace(pat, rep)` for nonempty `pat`. -/
def pyReplace (s pat rep : String) : String :=
  String.mk (replaceFuel pat.data rep.data s.data.length s.data)

/-- The class `EnvConfig`: a named property set. -/
structure EnvConfig where
  name : String
  properties : Dict
deriving DecidableEq

/-- The class `Config`: the configuration store.  `master_config_name` is
`some` exactly when the attribute was set (`is_master` at construction). -/
structure Config where
  master_config_name : Option String
  configs : List (String × EnvConfig)
  envVarPref : String
deriving DecidableEq

/-- `Config.__init__(name, properties, is_master, environment_variables_prefix)`. -/
def Config.init (name : String) (properties : Dict) (is_master : Bool)
    (envVarPref : String) : Config :=
  { master_config_name := if is_master then some name else Option.none,
    configs := [(name, ⟨name, properties⟩)],
    envVarPref := envVarPref }

/-- `Config._resolve_property_from_os_env`: read the environment variable
named by the configured variable name prefix followed by the key. -/
def Config.resolve_property_from_os_env (c : Config) (environ : Environ)
    (key : String) : Except String String :=
  match lookupV environ (c.envVarPref ++ key) with
  | Option.none =>
    Except.error ("failed to load property value \x27" ++ key ++
      "\x27 from os.environment, no such env variable \x27" ++
      (c.envVarPref ++ key) ++ "\x27")
  | some v => Except.ok v

/-- `Config._resolve_default_config_name`. -/
def Config.resolve_default_config_name (c : Config) (environ : Environ) :
    Except String String :=
  c.resolve_property_from_os_env environ "env"

/-- The expression `name or self._resolve_default_config_name()` inside
`Config._get_env_config`: a `None` or empty (falsy) name falls back to the
default config name read from the environment variable. -/
def Config.used_name (c : Config) (environ : Environ) (name : Option String) :
    Except String String :=
  match name with
  | some n => if n = "" then c.resolve_default_config_name environ else Except.ok n
  | Option.none => c.resolve_default_config_name environ

/-- `Config._get_env_config`. -/
def Config.get_env_config (c : Config) (environ : Environ) (name : Option String) :
    Except String EnvConfig :=
  match c.used_name environ name with
  | Except.error e => Except.error e
  | Except.ok used =>
    match lookupV c.configs used with
    | some ec => Except.ok ec
    | Option.none => Except.error ("no such config name: " ++ used)

/-- `Config._resolve_property_with_os_env_fallback`: the absent-marker is
filled from the environment variable for the key, any other value is kept. -/
def Config.resolve_property_with_os_env_fallback (c : Config) (environ : Environ)
    (key : String) (value : Value) : Except String Value :=
  match value with
  | Value.none =>
    match c.resolve_property_from_os_env environ key with
    | Except.error e => Except.error e
    | Except.ok s => Except.ok (Value.str s)
  | v => Except.ok v

/-- The dict comprehension in `Config.resolve` building
`properties_with_placeholders`: apply the fallback to every item in order,
raising at the first failure. -/
def Config.resolve_props (c : Config) (environ : Environ) :
    List (String × Value) → Except String (List (String × Value))
  | [] => Except.ok []
  | (k, v) :: rest =>
    match c.resolve_property_with_os_env_fallback environ k v with
    | Except.error e => Except.error e
    | Except.ok v2 =>
      match c.resolve_props environ rest with
      | Except.error e => Except.error e
      | Except.ok rest2 => Except.ok ((k, v2) :: rest2)

/-- The `string_properties` comprehension in `Config.resolve`: the items
whose value is a string. -/
def string_props (l : List (String × Value)) : List (String × String) :=
  l.filterMap (fun kv => match kv.2 with
    | Value.str s => some (kv.1, s)
    | _ => Option.none)

/-- The loop body of `Config._resolve_placeholders`: starting from `acc`
(Python `modified_value`, initially the value itself), for each table item
`(k, v)` in order, if `v` differs from the original `orig` (Python
`value`), replace every occurrence of the brace-delimited key in the
accumulator by `v`. -/
def substFold (orig : String) (table : List (String × String)) (acc : String) :
    String :=
  table.foldl
    (fun a kv =>
      if kv.2 ≠ orig then pyReplace a ("\x7b" ++ kv.1 ++ "\x7d") kv.2 else a)
    acc

/-- `Config._resolve_placeholders`: substitute placeholders in a string
value, pass any other value through unchanged. -/
def Config.resolve_placeholders (value : Value)
    (table : List (String × String)) : Value :=
  match value with
  | Value.str s => Value.str (substFold s table s)
  | v => v

/-- `Config.resolve`. -/
def Config.resolve (c : Config) (environ : Environ) (name : Option String) :
    Except String (List (String × Value)) :=
  match c.get_env_config environ name with
  | Except.error e => Except.error e
  | Except.ok env_config =>
    match c.resolve_props environ env_config.properties with
    | Except.error e => Except.error e
    | Except.ok props =>
      Except.ok (props.map
        (fun kv => (kv.1, Config.resolve_placeholders kv.2 (string_props props))))

/-- `Config.resolve_property`: look the key up in the resolved mapping
(`none` models the `KeyError` on a missing key). -/
def Config.resolve_property (c : Config) (environ : Environ)
    (property_name : String) (config_name : Option String) :
    Except String (Option Value) :=
  match c.resolve environ config_name with
  | Except.error e => Except.error e
  | Except.ok m => Except.ok (lookupV m property_name)

/-- `Config._get_master_properties`: the empty dict when no master was
designated, else the properties of the environment that
`_get_env_config(self.master_config_name)` finds (the `.copy()` is the
identity in this pure model). -/
def Config.get_master_properties (c : Config) (environ : Environ) :
    Except String Dict :=
  match c.master_config_name with
  | Option.none => Except.ok []
  | some m =>
    match c.get_env_config environ (some m) with
    | Except.error e => Except.error e
    | Except.ok ec => Except.ok ec.properties

/-- `Config.add_configuration`: the master base updated with the supplied
overrides, stored under the new name (silently overwriting an existing
entry). -/
def Config.add_configuration (c : Config) (environ : Environ) (name : String)
    (properties : Dict) : Except String Config :=
  match c.get_master_properties environ with
  | Except.error e => Except.error e
  | Except.ok base =>
    Except.ok { c with
      configs := setAssoc c.configs name ⟨name, updateDict base properties⟩ }

/-- The property dict built by `DatasetConfig.__init__`: a copy of the
supplied extra properties (empty when falsy), then the five fixed keys
assigned in source order.  `dataset_name` defaults to the literal string
`"None"`; `internal_tables` and `external_tables` default to an empty
list and mapping (Python `x or []` / `x or {}`). -/
def datasetProps (project_id env_name dataset_name : String)
    (internal_tables : Option (List String))
    (external_tables : Option (List (String × String)))
    (properties : Option Dict) : Dict :=
  setAssoc
    (setAssoc
      (setAssoc
        (setAssoc
          (setAssoc (properties.getD []) "project_id" (Value.str project_id))
          "env" (Value.str env_name))
        "dataset_name" (Value.str dataset_name))
      "internal_tables" (Value.strlist (internal_tables.getD [])))
    "external_tables" (Value.strmap (external_tables.getD []))

/-- The class `DatasetConfig`: the typed facade owning one `Config`. -/
structure DatasetConfig where
  delegate : Config
deriving DecidableEq

/-- `DatasetConfig.__init__`: build the fixed-key property set and delegate
to `Config` construction (with the empty variable-name prefix). -/
def DatasetConfig.init (env project_id : String) (dataset_name : String := "None")
    (internal_tables : Option (List String) := Option.none)
    (external_tables : Option (List (String × String)) := Option.none)
    (properties : Option Dict := Option.none) (is_master : Bool := true) :
    DatasetConfig :=
  ⟨Config.init env
    (datasetProps project_id env dataset_name internal_tables external_tables
      properties) is_master ""⟩

/-- `DatasetConfig.add_configuration`: `project_id` and `env` are always
assigned; `dataset_name`, `internal_tables` and `external_tables` only when
truthy (non-`None`, and nonempty for the string / list / mapping). -/
def DatasetConfig.add_configuration (dc : DatasetConfig) (environ : Environ)
    (env project_id : String) (dataset_name : Option String := Option.none)
    (internal_tables : Option (List String) := Option.none)
    (external_tables : Option (List (String × String)) := Option.none)
    (properties : Option Dict := Option.none) : Except String DatasetConfig :=
  let p2 := setAssoc (setAssoc (properties.getD []) "project_id"
    (Value.str project_id)) "env" (Value.str env)
  let p3 := match dataset_name with
    | some s => if s ≠ "" then setAssoc p2 "dataset_name" (Value.str s) else p2
    | Option.none => p2
  let p4 := match internal_tables with
    | some l => if l ≠ [] then setAssoc p3 "internal_tables" (Value.strlist l) else p3
    | Option.none => p3
  let p5 := match external_tables with
    | some m => if m ≠ [] then setAssoc p4 "external_tables" (Value.strmap m) else p4
    | Option.none => p4
  match dc.delegate.add_configuration environ env p5 with
  | Except.error e => Except.error e
  | Except.ok c => Except.ok ⟨c⟩

/-- `DatasetConfig.resolve`: delegation. -/
def DatasetConfig.resolve (dc : DatasetConfig) (environ : Environ)
    (env : Option String) : Except String (List (String × Value)) :=
  dc.delegate.resolve environ env

/-- `DatasetConfig.resolve_property`: delegation. -/
def DatasetConfig.resolve_property (dc : DatasetConfig) (environ : Environ)
    (property_name : String) (env : Option String) : Except String (Option Value) :=
  dc.delegate.resolve_property environ property_name env

/-- `DatasetConfig._is_extra_property`: not one of the five fixed keys. -/
def DatasetConfig.is_extra_property (property_name : String) : Bool :=
  !(List.elem property_name
    ["project_id", "dataset_name", "internal_tables", "external_tables", "env"])

/-- `DatasetConfig.resolve_extra_properties`: the resolved mapping filtered
to the extra (non-fixed) keys. -/
def DatasetConfig.resolve_extra_properties (dc : DatasetConfig) (environ : Environ)
    (env : Option String) : Except String (List (String × Value)) :=
  match dc.resolve environ env with
  | Except.error e => Except.error e
  | Except.ok m =>
    Except.ok (m.filter (fun kv => DatasetConfig.is_extra_property kv.1))

/-- `DatasetConfig.resolve_project_id`. -/
def DatasetConfig.resolve_project_id (dc : DatasetConfig) (environ : Environ)
    (env : Option String) : Except String (Option Value) :=
  dc.resolve_property environ "project_id" env

/-- `DatasetConfig.resolve_dataset_name`. -/
def DatasetConfig.resolve_dataset_name (dc : DatasetConfig) (environ : Environ)
    (env : Option String) : Except String (Option Value) :=
  dc.resolve_property environ "dataset_name" env

/-- `DatasetConfig.resolve_internal_tables`. -/
def DatasetConfig.resolve_internal_tables (dc : DatasetConfig) (environ : Environ)
    (env : Option String) : Except String (Option Value) :=
  dc.resolve_property environ "internal_tables" env

/-- `DatasetConfig.resolve_external_tables`. -/
def DatasetConfig.resolve_external_tables (dc : DatasetConfig) (environ : Environ)
    (env : Option String) : Except String (Option Value) :=
  dc.resolve_property environ "external_tables" env

/-- Does an `Except` carry an error. -/
def isErr {α : Type} : Except String α → Bool
  | Except.error _ => true
  | Except.ok _ => false

/-- Is a requested environment name falsy in the source's sense: not given
at all, or the empty string. -/
def trivialName : Option String → Bool
  | Option.none => true
  | some n => n = ""

/-- The effective target name of a resolution request: the given name when
it is non-falsy, otherwise the value (if any) of the default-environment
variable. -/
def Config.effective_name (c : Config) (environ : Environ)
    (name : Option String) : Option String :=
  if trivialName name then lookupV environ (c.envVarPref ++ "env") else name

/-- The opening brace character. -/
def lbrace : Char := Char.ofNat 123

/-- Modelled from the spec sentences of claim C2: a strictly single-pass
simultaneous substitution.  The value is scanned left to right once; at a
position where some table token `(k, v)` with `v` different from the
original value has its brace-delimited key starting there, `v` is emitted
and the scan continues after the token, so emitted text is never re-scanned
for further placeholders.  (Distinct keys give distinct brace-delimited
tokens, so at most one key matches at a position up to table order.) -/
def specTokenAt (table : List (String × String)) (orig : String)
    (s : List Char) : Option (String × String) :=
  table.find? (fun kv =>
    (kv.2 != orig) && isPre ("\x7b" ++ kv.1 ++ "\x7d").data s)

/-- Modelled from the spec sentences of claim C2: the scanning loop of the
single-pass substitution, fuel-indexed by the length of the scanned text. -/
def specOnePassAux (table : List (String × String)) (orig : String) :
    Nat → List Char → List Char
  | 0, s => s
  | _ + 1, [] => []
  | fuel + 1, c :: rest =>
    match specTokenAt table orig (c :: rest) with
    | some kv =>
      kv.2.data ++
        specOnePassAux table orig fuel (List.drop (kv.1.length + 2) (c :: rest))
    | Option.none => c :: specOnePassAux table orig fuel rest

/-- Modelled from the spec sentences of claim C2: single-pass substitution
over a whole string value. -/
def specOnePassSubst (orig : String) (table : List (String × String)) : String :=
  String.mk (specOnePassAux table orig orig.data.length orig.data)

/-- Modelled from the amended claim C2: sequential substitution, one table
entry at a time in table order; each entry whose value differs from the
original value replaces all occurrences of its brace-delimited key in the
current accumulator, so text introduced by earlier entries is re-scanned by
later ones. -/
def seqSubstSpec (orig : String) :
    List (String × String) → String → String
  | [], cur => cur
  | kv :: rest, cur =>
    seqSubstSpec orig rest
      (if kv.2 = orig then cur else pyReplace cur ("\x7b" ++ kv.1 ++ "\x7d") kv.2)

theorem lookupV_nil {α : Type} (k : String) :
    lookupV ([] : List (String × α)) k = Option.none := rfl

theorem lookupV_cons {α : Type} (k0 : String) (v : α) (rest : List (String × α))
    (k : String) :
    lookupV ((k0, v) :: rest) k = if k0 = k then some v else lookupV rest k := rfl

theorem lookupV_eq_none_of_not_mem {α : Type} (l : List (String × α)) (k : String)
    (h : k ∉ l.map Prod.fst) : lookupV l k = Option.none := by
  induction l with
  | nil => rfl
  | cons kv rest ih =>
    obtain ⟨k0, v0⟩ := kv
    simp only [List.map_cons, List.mem_cons] at h
    push_neg at h
    simp only [lookupV_cons]
    rw [if_neg (fun hk => h.1 hk.symm), ih h.2]

theorem lookupV_setAssoc_self {α : Type} (l : List (String × α)) (k : String)
    (v : α) : lookupV (setAssoc l k v) k = some v := by
  induction l with
  | nil => simp [setAssoc, lookupV]
  | cons kv rest ih =>
    obtain ⟨k0, v0⟩ := kv
    by_cases hk : k0 = k
    · simp [setAssoc, hk, lookupV]
    · simp only [setAssoc, if_neg hk, lookupV_cons, if_neg hk, ih]

theorem lookupV_setAssoc_ne {α : Type} (l : List (String × α)) (k' k : String)
    (v : α) (h : k' ≠ k) : lookupV (setAssoc l k' v) k = lookupV l k := by
  induction l with
  | nil => simp [setAssoc, lookupV, h]
  | cons kv rest ih =>
    obtain ⟨k0, v0⟩ := kv
    by_cases hk : k0 = k'
    · subst hk
      simp [setAssoc, lookupV_cons, h]
    · simp only [setAssoc, if_neg hk, lookupV_cons, ih]

theorem updateDict_nil {α : Type} (d : List (String × α)) : updateDict d [] = d := rfl

theorem updateDict_cons {α : Type} (d : List (String × α)) (kv : String × α)
    (o : List (String × α)) :
    updateDict d (kv :: o) = updateDict (setAssoc d kv.1 kv.2) o := rfl

theorem lookupV_updateDict_of_not_mem {α : Type} (o : List (String × α)) :
    ∀ (d : List (String × α)) (k : String), lookupV o k = Option.none →
      lookupV (updateDict d o) k = lookupV d k := by
  induction o with
  | nil => intro d k _; rfl
  | cons kv rest ih =>
    intro d k h
    obtain ⟨k0, v0⟩ := kv
    rw [lookupV_cons] at h
    by_cases hk : k0 = k
    · rw [if_pos hk] at h; exact absurd h (by simp)
    · rw [if_neg hk] at h
      rw [updateDict_cons, ih _ k h, lookupV_setAssoc_ne _ _ _ _ hk]

theorem lookupV_updateDict_of_mem {α : Type} (o : List (String × α)) :
    ∀ (d : List (String × α)) (k : String) (v : α),
      (o.map Prod.fst).Nodup → lookupV o k = some v →
      lookupV (updateDict d o) k = some v := by
  induction o with
  | nil => intro d k v _ h; exact absurd h (by simp [lookupV])
  | cons kv rest ih =>
    intro d k v hnd h
    obtain ⟨k0, v0⟩ := kv
    simp only [List.map_cons, List.nodup_cons] at hnd
    rw [lookupV_cons] at h
    by_cases hk : k0 = k
    · rw [if_pos hk] at h
      subst hk
      have hrest : lookupV rest k0 = Option.none :=
        lookupV_eq_none_of_not_mem _ _ hnd.1
      rw [updateDict_cons, lookupV_updateDict_of_not_mem _ _ _ hrest,
        lookupV_setAssoc_self]
      exact h
    · rw [if_neg hk] at h
      rw [updateDict_cons]
      exact ih _ k v hnd.2 h

theorem lookupV_map_snd (f : Value → Value) (l : List (String × Value)) (k : String) :
    lookupV (l.map (fun kv => (kv.1, f kv.2))) k = (lookupV l k).map f := by
  induction l with
  | nil => rfl
  | cons kv rest ih =>
    obtain ⟨k0, v0⟩ := kv
    simp only [List.map_cons, lookupV_cons]
    by_cases hk : k0 = k
    · simp [hk]
    · simp only [if_neg hk, ih]

theorem lookupV_filter_eq_none (p : String → Bool) (l : List (String × Value))
    (k : String) (hp : p k = false) :
    lookupV (l.filter (fun kv => p kv.1)) k = Option.none := by
  induction l with
  | nil => rfl
  | cons kv rest ih =>
    obtain ⟨k0, v0⟩ := kv
    by_cases h0 : p k0
    · rw [List.filter_cons_of_pos (by simpa using h0), lookupV_cons]
      have hk : k0 ≠ k := fun hk => by rw [hk, hp] at h0; exact absurd h0 (by simp)
      rw [if_neg hk]
      exact ih
    · rw [List.filter_cons_of_neg (by simpa using h0)]
      exact ih

theorem lookupV_singleton {α : Type} (n u : String) (x : α) (y : α)
    (h : lookupV [(n, x)] u = some y) : y = x := by
  rw [lookupV_cons] at h
  by_cases hk : n = u
  · rw [if_pos hk] at h; injection h with h; exact h.symm
  · rw [if_neg hk] at h; exact absurd h (by simp [lookupV])

theorem replaceFuel_no_lbrace (t rep : List Char) :
    ∀ (fuel : Nat) (s : List Char), lbrace ∉ s →
      replaceFuel (lbrace :: t) rep fuel s = s := by
  intro fuel
  induction fuel with
  | zero => intro s _; rfl
  | succ n ih =>
    intro s hs
    cases s with
    | nil => rfl
    | cons c rest =>
      have hc : lbrace ≠ c := fun h => hs (h ▸ List.mem_cons_self c rest)
      have hpre : isPre (lbrace :: t) (c :: rest) = false := by
        simp [isPre, hc]
      rw [replaceFuel]
      simp only [List.isEmpty_cons, Bool.false_eq_true, if_false, hpre]
      rw [ih rest (fun h => hs (List.mem_cons_of_mem c h))]

theorem tok_data (k : String) :
    ("\x7b" ++ k ++ "\x7d").data = lbrace :: (k.data ++ "\x7d".data) := by
  have h1 : ("\x7b" ++ k ++ "\x7d").data = "\x7b".data ++ k.data ++ "\x7d".data := by
    rw [String.data_append, String.data_append]
  rw [h1]
  rfl

theorem pyReplace_no_lbrace (s k rep : String) (hs : lbrace ∉ s.data) :
    pyReplace s ("\x7b" ++ k ++ "\x7d") rep = s := by
  rw [pyReplace, tok_data, replaceFuel_no_lbrace _ _ _ _ hs]

theorem substFold_cons (orig : String) (kv : String × String)
    (rest : List (String × String)) (acc : String) :
    substFold orig (kv :: rest) acc =
      substFold orig rest
        (if kv.2 ≠ orig then pyReplace acc ("\x7b" ++ kv.1 ++ "\x7d") kv.2 else acc) :=
  rfl

theorem substFold_no_lbrace (s : String) (hs : lbrace ∉ s.data) :
    ∀ table : List (String × String), substFold s table s = s := by
  intro table
  induction table with
  | nil => rfl
  | cons kv rest ih =>
    rw [substFold_cons]
    by_cases hv : kv.2 = s
    · rw [if_neg (by simp [hv])]; exact ih
    · rw [if_pos (by simp [hv]), pyReplace_no_lbrace _ _ _ hs]; exact ih

theorem substFold_eq_seqSubstSpec (orig : String) :
    ∀ (table : List (String × String)) (acc : String),
      substFold orig table acc = seqSubstSpec orig table acc := by
  intro table
  induction table with
  | nil => intro acc; rfl
  | cons kv rest ih =>
    intro acc
    rw [substFold_cons, seqSubstSpec, ih]
    by_cases hv : kv.2 = orig
    · rw [if_neg (by simp [hv]), if_pos hv]
    · rw [if_pos (by simp [hv]), if_neg hv]

theorem resolve_props_nil (c : Config) (environ : Environ) :
    c.resolve_props environ [] = Except.ok [] := rfl

theorem resolve_props_lookup (c : Config) (environ : Environ) :
    ∀ (l l' : List (String × Value)), c.resolve_props environ l = Except.ok l' →
      ∀ (k : String) (v : Value), lookupV l k = some v →
        ∃ v', c.resolve_property_with_os_env_fallback environ k v = Except.ok v' ∧
          lookupV l' k = some v' := by
  intro l
  induction l with
  | nil =>
    intro l' _ k v hv
    exact absurd hv (by simp [lookupV])
  | cons kv rest ih =>
    intro l' h k v hv
    obtain ⟨k0, v0⟩ := kv
    rw [Config.resolve_props] at h
    rcases hfb : c.resolve_property_with_os_env_fallback environ k0 v0 with e | v2 <;>
      rw [hfb] at h
    · exact absurd h (by simp)
    rcases hr : c.resolve_props environ rest with e | rest2 <;> rw [hr] at h
    · exact absurd h (by simp)
    injection h with h
    subst h
    rw [lookupV_cons] at hv
    by_cases hk : k0 = k
    · rw [if_pos hk] at hv
      injection hv with hv
      subst hv
      subst hk
      exact ⟨v2, hfb, by rw [lookupV_cons, if_pos rfl]⟩
    · rw [if_neg hk] at hv
      obtain ⟨v', hfb', hl'⟩ := ih rest2 hr k v hv
      exact ⟨v', hfb', by rw [lookupV_cons, if_neg hk]; exact hl'⟩

theorem fallback_err (c : Config) (environ : Environ) (k0 : String) (v0 : Value)
    (e : String)
    (hfb : c.resolve_property_with_os_env_fallback environ k0 v0 = Except.error e) :
    v0 = Value.none ∧ lookupV environ (c.envVarPref ++ k0) = Option.none := by
  cases v0 with
  | none =>
    refine ⟨rfl, ?_⟩
    rw [Config.resolve_property_with_os_env_fallback,
      Config.resolve_property_from_os_env] at hfb
    rcases henv : lookupV environ (c.envVarPref ++ k0) with _ | w <;>
      rw [henv] at hfb
    simp at hfb
  | str s => exact absurd hfb (by simp [Config.resolve_property_with_os_env_fallback])
  | strlist l => exact absurd hfb (by simp [Config.resolve_property_with_os_env_fallback])
  | strmap m => exact absurd hfb (by simp [Config.resolve_property_with_os_env_fallback])

theorem fallback_ok_not_missing (c : Config) (environ : Environ) (k0 : String)
    (v2 : Value)
    (hfb : c.resolve_property_with_os_env_fallback environ k0 Value.none =
      Except.ok v2) :
    lookupV environ (c.envVarPref ++ k0) ≠ Option.none := by
  intro henv
  rw [Config.resolve_property_with_os_env_fallback,
    Config.resolve_property_from_os_env, henv] at hfb
  exact absurd hfb (by simp)

theorem isErr_resolve_props_cons (c : Config) (environ : Environ) (k0 : String)
    (v0 v2 : Value) (rest : List (String × Value))
    (hfb : c.resolve_property_with_os_env_fallback environ k0 v0 = Except.ok v2) :
    isErr (c.resolve_props environ ((k0, v0) :: rest)) =
      isErr (c.resolve_props environ rest) := by
  rw [Config.resolve_props, hfb]
  rcases hr : c.resolve_props environ rest with e | rest2 <;> simp [isErr]

theorem resolve_props_err_iff (c : Config) (environ : Environ) :
    ∀ l : List (String × Value),
      isErr (c.resolve_props environ l) = true ↔
        ∃ k, (k, Value.none) ∈ l ∧
          lookupV environ (c.envVarPref ++ k) = Option.none := by
  intro l
  induction l with
  | nil => simp [resolve_props_nil, isErr]
  | cons kv rest ih =>
    obtain ⟨k0, v0⟩ := kv
    rcases hfb : c.resolve_property_with_os_env_fallback environ k0 v0 with e | v2
    · constructor
      · intro _
        obtain ⟨h1, h2⟩ := fallback_err c environ k0 v0 e hfb
        subst h1
        exact ⟨k0, List.mem_cons_self _ _, h2⟩
      · intro _
        rw [Config.resolve_props, hfb]
        rfl
    · rw [isErr_resolve_props_cons c environ k0 v0 v2 rest hfb, ih]
      constructor
      · rintro ⟨k, hk, he⟩
        exact ⟨k, List.mem_cons_of_mem _ hk, he⟩
      · rintro ⟨k, hk, he⟩
        rcases List.mem_cons.mp hk with hhead | htail
        · injection hhead with h1 h2
          subst h1
          rw [← h2] at hfb
          exact absurd he (fallback_ok_not_missing c environ k v2 hfb)
        · exact ⟨k, htail, he⟩

theorem get_env_config_err (c : Config) (environ : Environ) (name : Option String)
    (e : String) (hu : c.used_name environ name = Except.error e) :
    c.get_env_config environ name = Except.error e := by
  rw [Config.get_env_config, hu]

theorem get_env_config_ok_used (c : Config) (environ : Environ)
    (name : Option String) (used : String)
    (hu : c.used_name environ name = Except.ok used) :
    c.get_env_config environ name =
      match lookupV c.configs used with
      | some ec => Except.ok ec
      | Option.none => Except.error ("no such config name: " ++ used) := by
  rw [Config.get_env_config, hu]

theorem get_env_config_singleton (c : Config) (environ : Environ)
    (name : Option String) (n : String) (x : EnvConfig) (ec : EnvConfig)
    (hc : c.configs = [(n, x)]) (h : c.get_env_config environ name = Except.ok ec) :
    ec = x := by
  rcases hu : c.used_name environ name with e | used
  · rw [get_env_config_err c environ name e hu] at h
    exact absurd h (by simp)
  · rw [get_env_config_ok_used c environ name used hu, hc] at h
    rcases hl : lookupV [(n, x)] used with _ | y <;> rw [hl] at h
    · have h2 : (Except.error ("no such config name: " ++ used) :
          Except String EnvConfig) = Except.ok ec := h
      exact absurd h2 (by simp)
    · have h2 : Except.ok y = Except.ok ec := h
      injection h2 with h2
      subst h2
      exact lookupV_singleton n used x _ hl

/-- Claim C4: for an environment whose properties are
`{a: "{b}", b: "{a}"}`, `resolve` terminates and returns the defined
single-substitution result for both keys (each value is replaced once,
yielding the swapped placeholders), for every process environment.  In the
embedding every operation is a total structurally recursive function, so
termination for every finite property set holds by construction; this
theorem certifies the mutually referential example computes the stated
defined result without error. -/
theorem resolve_terminates_on_mutual_placeholders (environ : Environ) :
    (Config.init "e" [("a", Value.str "\x7bb\x7d"), ("b", Value.str "\x7ba\x7d")]
        true "").resolve environ (some "e") =
      Except.ok [("a", Value.str "\x7ba\x7d"), ("b", Value.str "\x7bb\x7d")] := rfl

/-- Claim C7: the master `"prod"` with
`{project_id: "p1", env: "prod", dataset_name: "{project_id}_ds"}` resolves
to `{project_id: "p1", env: "prod", dataset_name: "p1_ds"}`, and after
`add_configuration("dev", {project_id: "p2"})` the derived environment
resolves `dataset_name` to `"p2_ds"` through its own substitution table. -/
theorem resolve_prod_dev_example :
    (Config.init "prod"
        [("project_id", Value.str "p1"), ("env", Value.str "prod"),
          ("dataset_name", Value.str "\x7bproject_id\x7d_ds")] true "").resolve []
        (some "prod") =
      Except.ok [("project_id", Value.str "p1"), ("env", Value.str "prod"),
        ("dataset_name", Value.str "p1_ds")]
    ∧ Except.bind
        ((Config.init "prod"
          [("project_id", Value.str "p1"), ("env", Value.str "prod"),
            ("dataset_name", Value.str "\x7bproject_id\x7d_ds")] true
          "").add_configuration [] "dev" [("project_id", Value.str "p2")])
        (fun c2 => c2.resolve [] (some "dev")) =
      Except.ok [("project_id", Value.str "p2"), ("env", Value.str "prod"),
        ("dataset_name", Value.str "p2_ds")]
    ∧ lookupV [("project_id", Value.str "p2"), ("env", Value.str "prod"),
        ("dataset_name", Value.str "p2_ds")] "dataset_name" =
      some (Value.str "p2_ds") :=
  ⟨rfl, rfl, rfl⟩

/-- Claim C9: `resolve` is deterministic — on identical stored store state
and an identical process-environment mapping, two calls with the same
argument return equal results (and fail identically).  The embedding makes
`resolve` a pure function of exactly the store state, the process
environment and the requested name, which is how the source reads only
`self` and `os.environ`. -/
theorem resolve_deterministic (c1 c2 : Config) (e1 e2 : Environ)
    (name : Option String) (hc : c1 = c2) (he : e1 = e2) :
    c1.resolve e1 name = c2.resolve e2 name := by
  subst hc
  subst he
  rfl

theorem resolve_deterministic_witness :
    (Config.init "prod" [("a", Value.str "1")] true "").resolve [] (some "prod") =
      (Config.init "prod" [("a", Value.str "1")] true "").resolve [] (some "prod") :=
  resolve_deterministic (Config.init "prod" [("a", Value.str "1")] true "")
    (Config.init "prod" [("a", Value.str "1")] true "") [] [] (some "prod") rfl rfl

theorem resolve_ok_inv (c : Config) (environ : Environ) (name : Option String)
    (m : List (String × Value)) (hres : c.resolve environ name = Except.ok m) :
    ∃ ec props, c.get_env_config environ name = Except.ok ec ∧
      c.resolve_props environ ec.properties = Except.ok props ∧
      m = props.map
        (fun kv => (kv.1, Config.resolve_placeholders kv.2 (string_props props))) := by
  rw [Config.resolve] at hres
  rcases hgec : c.get_env_config environ name with e | ec <;>
    rw [hgec] at hres <;> simp only at hres
  · exact absurd hres (by simp)
  · rcases hp : c.resolve_props environ ec.properties with e | props <;>
      rw [hp] at hres <;> simp only at hres
    · exact absurd hres (by simp)
    · injection hres with hres
      exact ⟨ec, props, rfl, hp, hres.symm⟩

/-- Claim C10: a facade constructed without a dataset name stores the
literal string `"None"` under `dataset_name` (the Python default argument
`dataset_name: str = 'None'`), not the absent-marker; resolution therefore
never falls back to the `dataset_name` environment variable — for every
process environment, whenever resolution succeeds the resolved
`dataset_name` is the string `"None"` (placeholder substitution leaves it
unchanged since it contains no brace) — and the stored property set maps
`dataset_name` to the string `"None"`. -/
theorem default_dataset_name_is_literal_none (env project_id : String)
    (internal_tables : Option (List String))
    (external_tables : Option (List (String × String)))
    (properties : Option Dict) (is_master : Bool) (environ : Environ)
    (name : Option String) (m : List (String × Value))
    (hres : (DatasetConfig.init env project_id "None" internal_tables
        external_tables properties is_master).resolve environ name = Except.ok m) :
    lookupV m "dataset_name" = some (Value.str "None")
    ∧ lookupV
        (datasetProps project_id env "None" internal_tables external_tables
          properties) "dataset_name" = some (Value.str "None") := by
  have hstored : lookupV
      (datasetProps project_id env "None" internal_tables external_tables
        properties) "dataset_name" = some (Value.str "None") := by
    rw [datasetProps, lookupV_setAssoc_ne _ _ _ _ (by decide),
      lookupV_setAssoc_ne _ _ _ _ (by decide), lookupV_setAssoc_self]
  refine ⟨?_, hstored⟩
  rw [DatasetConfig.resolve] at hres
  obtain ⟨ec, props, hgec, hp, hm⟩ := resolve_ok_inv _ _ _ _ hres
  have hec : ec = ⟨env, datasetProps project_id env "None" internal_tables
      external_tables properties⟩ :=
    get_env_config_singleton _ environ name env _ ec rfl hgec
  subst hec
  obtain ⟨v', hfb, hl⟩ :=
    resolve_props_lookup _ environ _ props hp "dataset_name" (Value.str "None")
      hstored
  have hv' : v' = Value.str "None" := by
    have h2 : Except.ok (Value.str "None") = Except.ok v' := hfb
    injection h2 with h2
    exact h2.symm
  subst hv'
  rw [hm, lookupV_map_snd (fun v =>
    Config.resolve_placeholders v (string_props props)) props "dataset_name", hl]
  have hpl : Config.resolve_placeholders (Value.str "None") (string_props props) =
      Value.str "None" := by
    show Value.str (substFold "None" (string_props props) "None") = Value.str "None"
    rw [substFold_no_lbrace "None" (by decide)]
  simp only [Option.map, hpl]

theorem default_dataset_name_is_literal_none_witness :
    lookupV [("project_id", Value.str "p1"), ("env", Value.str "prod"),
        ("dataset_name", Value.str "None"), ("internal_tables", Value.strlist []),
        ("external_tables", Value.strmap [])] "dataset_name" =
      some (Value.str "None")
    ∧ lookupV (datasetProps "p1" "prod" "None" Option.none Option.none Option.none)
        "dataset_name" = some (Value.str "None") :=
  default_dataset_name_is_literal_none "prod" "p1" Option.none Option.none
    Option.none true [("dataset_name", "HACK")] (some "prod")
    [("project_id", Value.str "p1"), ("env", Value.str "prod"),
      ("dataset_name", Value.str "None"), ("internal_tables", Value.strlist []),
      ("external_tables", Value.strmap [])] rfl

/-- Claim C8: for every facade state and environment name for which
resolution succeeds, `resolve_extra_properties` returns exactly the items
of the full resolved mapping whose key is an extra key, and contains none
of `project_id`, `env`, `dataset_name`, `internal_tables`,
`external_tables`. -/
theorem resolve_extra_properties_excludes_fixed_keys (dc : DatasetConfig)
    (environ : Environ) (env : Option String) (m : List (String × Value))
    (h : dc.resolve environ env = Except.ok m) :
    dc.resolve_extra_properties environ env =
      Except.ok (m.filter (fun kv => DatasetConfig.is_extra_property kv.1))
    ∧ (∀ p : String × Value,
        p ∈ m.filter (fun kv => DatasetConfig.is_extra_property kv.1) ↔
          p ∈ m ∧ DatasetConfig.is_extra_property p.1 = true)
    ∧ lookupV (m.filter (fun kv => DatasetConfig.is_extra_property kv.1))
        "project_id" = Option.none
    ∧ lookupV (m.filter (fun kv => DatasetConfig.is_extra_property kv.1))
        "env" = Option.none
    ∧ lookupV (m.filter (fun kv => DatasetConfig.is_extra_property kv.1))
        "dataset_name" = Option.none
    ∧ lookupV (m.filter (fun kv => DatasetConfig.is_extra_property kv.1))
        "internal_tables" = Option.none
    ∧ lookupV (m.filter (fun kv => DatasetConfig.is_extra_property kv.1))
        "external_tables" = Option.none := by
  refine ⟨?_, fun p => List.mem_filter, ?_, ?_, ?_, ?_, ?_⟩
  · rw [DatasetConfig.resolve_extra_properties, h]
  · exact lookupV_filter_eq_none _ _ _ (by decide)
  · exact lookupV_filter_eq_none _ _ _ (by decide)
  · exact lookupV_filter_eq_none _ _ _ (by decide)
  · exact lookupV_filter_eq_none _ _ _ (by decide)
  · exact lookupV_filter_eq_none _ _ _ (by decide)

theorem resolve_extra_properties_excludes_fixed_keys_witness :
    (DatasetConfig.init "prod" "p1" "None" Option.none Option.none
        (some [("extra_key", Value.str "x")]) true).resolve_extra_properties []
        (some "prod") = Except.ok [("extra_key", Value.str "x")]
    ∧ lookupV ([("extra_key", Value.str "x"), ("project_id", Value.str "p1"),
        ("env", Value.str "prod"), ("dataset_name", Value.str "None"),
        ("internal_tables", Value.strlist []),
        ("external_tables", Value.strmap [])].filter
          (fun kv => DatasetConfig.is_extra_property kv.1)) "project_id" =
      Option.none :=
  ⟨(resolve_extra_properties_excludes_fixed_keys
      (DatasetConfig.init "prod" "p1" "None" Option.none Option.none
        (some [("extra_key", Value.str "x")]) true) [] (some "prod")
      [("extra_key", Value.str "x"), ("project_id", Value.str "p1"),
        ("env", Value.str "prod"), ("dataset_name", Value.str "None"),
        ("internal_tables", Value.strlist []),
        ("external_tables", Value.strmap [])] rfl).1,
    (resolve_extra_properties_excludes_fixed_keys
      (DatasetConfig.init "prod" "p1" "None" Option.none Option.none
        (some [("extra_key", Value.str "x")]) true) [] (some "prod")
      [("extra_key", Value.str "x"), ("project_id", Value.str "p1"),
        ("env", Value.str "prod"), ("dataset_name", Value.str "None"),
        ("internal_tables", Value.strlist []),
        ("external_tables", Value.strmap [])] rfl).2.2.1⟩

/-- Does the second character list occur contiguously anywhere in the
first. -/
def containsSeg : List Char → List Char → Bool
  | [], pat => pat.isEmpty
  | c :: rest, pat => isPre pat (c :: rest) || containsSeg rest pat

theorem substFold_all_self (s : String) :
    ∀ table : List (String × String), (∀ kv ∈ table, kv.2 = s) →
      substFold s table s = s := by
  intro table
  induction table with
  | nil => intro _; rfl
  | cons kv rest ih =>
    intro hall
    rw [substFold_cons, if_neg (by simp [hall kv (List.mem_cons_self _ _)])]
    exact ih (fun kv2 h2 => hall kv2 (List.mem_cons_of_mem _ h2))

/-- Counterexample to claim C2: substitution is not a strictly single pass
over the value.  For the value `"{a}"` and the substitution table
`[a ↦ "{b}", b ↦ "X"]` the code returns `"X"`: the text `"{b}"` that was
introduced by substituting `a` is re-scanned by the later table entry `b`
and expanded again, although the token `"{b}"` occurs nowhere in the
original value.  The single-pass substitution the claim describes returns
`"{b}"`. -/
theorem resolve_placeholders_rescans_substituted_text :
    Config.resolve_placeholders (Value.str "\x7ba\x7d")
        [("a", "\x7bb\x7d"), ("b", "X")] = Value.str "X"
    ∧ specOnePassSubst "\x7ba\x7d" [("a", "\x7bb\x7d"), ("b", "X")] = "\x7bb\x7d"
    ∧ ("X" : String) ≠ "\x7bb\x7d"
    ∧ containsSeg "\x7ba\x7d".data "\x7bb\x7d".data = false :=
  ⟨rfl, rfl, by decide, by decide⟩

/-- Claim C2 (amended): placeholder substitution processes the table
sequentially in table order starting from the original string value; each
entry whose value differs from the original value replaces every
occurrence of its brace-delimited key in the current accumulator (within
one entry the scan is left to right, non-overlapping, and never re-scans
the text that entry inserted), while an entry whose table value equals the
value being processed is skipped; text introduced by earlier entries may
be re-scanned by later entries, so transitive expansion can occur within
one resolve call.  In particular a table all of whose values equal the
processed value leaves it unchanged. -/
theorem resolve_placeholders_sequential (s : String)
    (table : List (String × String)) :
    Config.resolve_placeholders (Value.str s) table =
      Value.str (seqSubstSpec s table s)
    ∧ ((∀ kv ∈ table, kv.2 = s) →
        Config.resolve_placeholders (Value.str s) table = Value.str s) := by
  constructor
  · show Value.str (substFold s table s) = Value.str (seqSubstSpec s table s)
    rw [substFold_eq_seqSubstSpec]
  · intro hall
    show Value.str (substFold s table s) = Value.str s
    rw [substFold_all_self s table hall]

theorem resolve_placeholders_sequential_witness :
    Config.resolve_placeholders (Value.str "x") [("a", "x")] = Value.str "x" :=
  (resolve_placeholders_sequential "x" [("a", "x")]).2 (by decide)

theorem get_master_properties_of_master (c : Config) (environ : Environ)
    (m : String) (mc : EnvConfig) (hm : c.master_config_name = some m)
    (hm0 : m ≠ "") (hmc : lookupV c.configs m = some mc) :
    c.get_master_properties environ = Except.ok mc.properties := by
  have hu : c.used_name environ (some m) = Except.ok m := by
    rw [Config.used_name, if_neg hm0]
  have hgec : c.get_env_config environ (some m) = Except.ok mc := by
    rw [get_env_config_ok_used c environ (some m) m hu, hmc]
  rw [Config.get_master_properties, hm]
  simp only
  rw [hgec]

/-- Counterexample to claim C6: `add_configuration` called with the
master's own name replaces the master's stored entry, so the master's
stored property mapping does change.  Here the master `"m"` stores
`{a: "1"}`; after `add_configuration("m", {a: "2"})` it stores
`{a: "2"}`. -/
theorem add_configuration_same_name_mutates_master :
    (Config.init "m" [("a", Value.str "1")] true "").add_configuration []
        "m" [("a", Value.str "2")] =
      Except.ok (⟨some "m", [("m", ⟨"m", [("a", Value.str "2")]⟩)], ""⟩ : Config)
    ∧ lookupV [("m", (⟨"m", [("a", Value.str "2")]⟩ : EnvConfig))] "m" ≠
        lookupV (Config.init "m" [("a", Value.str "1")] true "").configs "m" :=
  ⟨rfl, by decide⟩

/-- Claim C6 (amended): provided the environment name being added differs
from the master's name, `add_configuration` leaves the master's stored
entry unchanged; and provided additionally the master's name is nonempty
(so the master lookup cannot be redirected through the default-environment
variable), the added environment's stored entry is exactly a copy of the
master's current properties updated with the supplied overrides. -/
theorem add_configuration_preserves_master_entry (c c' : Config)
    (environ : Environ) (name m : String) (O : Dict)
    (hm : c.master_config_name = some m) (hne : name ≠ m)
    (hadd : c.add_configuration environ name O = Except.ok c') :
    lookupV c'.configs m = lookupV c.configs m
    ∧ (m ≠ "" → ∀ mc, lookupV c.configs m = some mc →
        lookupV c'.configs name = some ⟨name, updateDict mc.properties O⟩) := by
  rw [Config.add_configuration] at hadd
  rcases hb : c.get_master_properties environ with e | base <;>
    rw [hb] at hadd <;> simp only at hadd
  · exact absurd hadd (by simp)
  · injection hadd with hadd
    subst hadd
    constructor
    · exact lookupV_setAssoc_ne _ _ _ _ hne
    · intro hm0 mc hmc
      have hbase : mc.properties = base := by
        have h2 := (get_master_properties_of_master c environ m mc hm hm0
          hmc).symm.trans hb
        injection h2
      rw [← hbase]
      exact lookupV_setAssoc_self _ _ _

theorem add_configuration_preserves_master_entry_witness :
    lookupV [("m", (⟨"m", [("a", Value.str "1")]⟩ : EnvConfig)),
        ("dev", (⟨"dev", [("a", Value.str "9")]⟩ : EnvConfig))] "m" =
      lookupV (Config.init "m" [("a", Value.str "1")] true "").configs "m"
    ∧ lookupV [("m", (⟨"m", [("a", Value.str "1")]⟩ : EnvConfig)),
        ("dev", (⟨"dev", [("a", Value.str "9")]⟩ : EnvConfig))] "dev" =
      some ⟨"dev", [("a", Value.str "9")]⟩ :=
  have h := add_configuration_preserves_master_entry
    (Config.init "m" [("a", Value.str "1")] true "")
    (⟨some "m", [("m", ⟨"m", [("a", Value.str "1")]⟩),
      ("dev", ⟨"dev", [("a", Value.str "9")]⟩)], ""⟩ : Config)
    [] "dev" "m" [("a", Value.str "9")] rfl (by decide) rfl
  ⟨h.1, h.2 (by decide) ⟨"m", [("a", Value.str "1")]⟩ rfl⟩

/-- Counterexample to claim C1: when the master's registered name is the
empty string, `add_configuration` resolves the inheritance base through
the default-environment variable (the empty name is falsy), so the base
can be a different environment than the master.  Master `""` stores
`{a: "1"}`; `"q"` is first registered with `{a: "2"}` (env var `env` =
`""`); then with env var `env` = `"q"` the environment `"E"` is registered
with the empty override set, and its stored (hence pre-substitution
resolved) value for the key `a`, which is absent from the override set, is
`"2"`, not the master's `"1"`. -/
theorem add_configuration_empty_master_redirect :
    (Config.init "" [("a", Value.str "1")] true "").add_configuration
        [("env", "")] "q" [("a", Value.str "2")] =
      Except.ok (⟨some "", [("", ⟨"", [("a", Value.str "1")]⟩),
        ("q", ⟨"q", [("a", Value.str "2")]⟩)], ""⟩ : Config)
    ∧ (⟨some "", [("", ⟨"", [("a", Value.str "1")]⟩),
        ("q", ⟨"q", [("a", Value.str "2")]⟩)], ""⟩ : Config).add_configuration
        [("env", "q")] "E" [] =
      Except.ok (⟨some "", [("", ⟨"", [("a", Value.str "1")]⟩),
        ("q", ⟨"q", [("a", Value.str "2")]⟩),
        ("E", ⟨"E", [("a", Value.str "2")]⟩)], ""⟩ : Config)
    ∧ lookupV ([] : Dict) "a" = Option.none
    ∧ lookupV [("a", Value.str "1")] "a" = some (Value.str "1")
    ∧ lookupV [("a", Value.str "2")] "a" ≠ some (Value.str "1") :=
  ⟨rfl, rfl, rfl, rfl, by decide⟩

/-- Claim C1 (amended): for every store whose registered master environment
`M` has a nonempty name, and every environment `E` registered via
`add_configuration` with override set `O`: every key of `M`'s properties
absent from `O` has in `E`'s stored properties exactly `M`'s value (hence
the same pre-substitution resolved value under any process environment),
and every key of `O` has in `E`'s stored properties `O`'s value. -/
theorem add_configuration_inherits_master_values (c c' : Config)
    (environ e2 : Environ) (name m : String) (O : Dict) (mc ec : EnvConfig)
    (hm : c.master_config_name = some m) (hm0 : m ≠ "")
    (hmc : lookupV c.configs m = some mc)
    (hadd : c.add_configuration environ name O = Except.ok c')
    (hec : lookupV c'.configs name = some ec)
    (hnd : (O.map Prod.fst).Nodup) :
    (∀ k, lookupV O k = Option.none →
      lookupV ec.properties k = lookupV mc.properties k)
    ∧ (∀ k, lookupV O k = Option.none →
        (lookupV ec.properties k).map
            (fun v => c.resolve_property_with_os_env_fallback e2 k v) =
          (lookupV mc.properties k).map
            (fun v => c.resolve_property_with_os_env_fallback e2 k v))
    ∧ (∀ k v, lookupV O k = some v → lookupV ec.properties k = some v) := by
  rw [Config.add_configuration,
    get_master_properties_of_master c environ m mc hm hm0 hmc] at hadd
  simp only at hadd
  injection hadd with hadd
  subst hadd
  rw [lookupV_setAssoc_self] at hec
  have hprops : ec.properties = updateDict mc.properties O := by
    injection hec with hec2
    rw [← hec2]
  refine ⟨?_, ?_, ?_⟩
  · intro k hk
    rw [hprops]
    exact lookupV_updateDict_of_not_mem O mc.properties k hk
  · intro k hk
    rw [hprops, lookupV_updateDict_of_not_mem O mc.properties k hk]
  · intro k v hk
    rw [hprops]
    exact lookupV_updateDict_of_mem O mc.properties k v hnd hk

theorem add_configuration_inherits_master_values_witness :
    lookupV [("a", Value.str "1"), ("b", Value.str "3")] "a" =
      lookupV [("a", Value.str "1"), ("b", Value.str "2")] "a"
    ∧ lookupV [("a", Value.str "1"), ("b", Value.str "3")] "b" =
      some (Value.str "3") :=
  have h := add_configuration_inherits_master_values
    (Config.init "m" [("a", Value.str "1"), ("b", Value.str "2")] true "")
    (⟨some "m", [("m", ⟨"m", [("a", Value.str "1"), ("b", Value.str "2")]⟩),
      ("dev", ⟨"dev", [("a", Value.str "1"), ("b", Value.str "3")]⟩)], ""⟩ : Config)
    [] [] "dev" "m" [("b", Value.str "3")]
    ⟨"m", [("a", Value.str "1"), ("b", Value.str "2")]⟩
    ⟨"dev", [("a", Value.str "1"), ("b", Value.str "3")]⟩
    rfl (by decide) rfl rfl rfl (by decide)
  ⟨h.1 "a" rfl, h.2.2 "b" (Value.str "3") rfl⟩

theorem lookupV_updateDict_cases {α : Type} (o d : List (String × α)) (k : String)
    (v : α) (hnd : (o.map Prod.fst).Nodup)
    (h : lookupV (updateDict d o) k = some v) :
    lookupV o k = some v ∨
      (lookupV o k = Option.none ∧ lookupV d k = some v) := by
  rcases ho : lookupV o k with _ | w
  · right
    refine ⟨rfl, ?_⟩
    rw [← lookupV_updateDict_of_not_mem o d k ho]
    exact h
  · left
    rw [lookupV_updateDict_of_mem o d k w hnd ho] at h
    injection h with h
    rw [h]

/-- Counterexample to claim C5: `add_configuration` can raise even when the
target name is already registered.  With a master registered under the
empty name and no `env` environment variable set, computing the master
base resolves the empty (falsy) master name through the default
environment variable and fails, so
`add_configuration` on the already-registered name `""` raises instead of
overwriting. -/
theorem add_configuration_error_with_empty_master :
    isErr ((Config.init "" [] true "").add_configuration [] "" []) = true
    ∧ lookupV (Config.init "" [] true "").configs "" = some ⟨"", []⟩ :=
  ⟨rfl, rfl⟩

/-- Claim C5 (amended): provided either no master exists or the master's
registered name is nonempty and registered, `add_configuration` with an
already-registered name raises no error and replaces that environment's
entire property set with the master base (the empty base when no master
exists, the master's current properties otherwise) updated by the new
overrides; every property of the replacement entry comes from the
overrides or, for keys absent from the overrides, from the master base, so
no property of the previously registered environment survives unless
re-supplied or present in the base. -/
theorem add_configuration_overwrites_existing (c : Config) (environ : Environ)
    (name : String) (O : Dict) (prev : EnvConfig)
    (hwf : c.master_config_name = Option.none ∨
      ∃ m mc, c.master_config_name = some m ∧ m ≠ "" ∧
        lookupV c.configs m = some mc)
    (hnd : (O.map Prod.fst).Nodup)
    (_hprev : lookupV c.configs name = some prev) :
    ∃ c' base, c.add_configuration environ name O = Except.ok c'
      ∧ c.get_master_properties environ = Except.ok base
      ∧ lookupV c'.configs name = some ⟨name, updateDict base O⟩
      ∧ (c.master_config_name = Option.none → base = [])
      ∧ (∀ m mc, c.master_config_name = some m →
          lookupV c.configs m = some mc → base = mc.properties)
      ∧ (∀ k v, lookupV (updateDict base O) k = some v →
          lookupV O k = some v ∨
            (lookupV O k = Option.none ∧ lookupV base k = some v)) := by
  rcases hwf with hnone | ⟨m, mc, hm, hm0, hmc⟩
  · have hb : c.get_master_properties environ = Except.ok [] := by
      rw [Config.get_master_properties, hnone]
    refine ⟨⟨c.master_config_name,
      setAssoc c.configs name ⟨name, updateDict [] O⟩, c.envVarPref⟩, [],
      ?_, hb, ?_, fun _ => rfl, ?_, ?_⟩
    · rw [Config.add_configuration, hb]
    · exact lookupV_setAssoc_self _ _ _
    · intro m2 mc2 hm2 _
      rw [hnone] at hm2
      exact absurd hm2 (by simp)
    · intro k v h
      exact lookupV_updateDict_cases O [] k v hnd h
  · have hb : c.get_master_properties environ = Except.ok mc.properties :=
      get_master_properties_of_master c environ m mc hm hm0 hmc
    refine ⟨⟨c.master_config_name,
      setAssoc c.configs name ⟨name, updateDict mc.properties O⟩, c.envVarPref⟩,
      mc.properties, ?_, hb, ?_, ?_, ?_, ?_⟩
    · rw [Config.add_configuration, hb]
    · exact lookupV_setAssoc_self _ _ _
    · intro h0
      rw [hm] at h0
      exact absurd h0 (by simp)
    · intro m2 mc2 hm2 hmc2
      rw [hm] at hm2
      injection hm2 with hm2
      subst hm2
      rw [hmc] at hmc2
      injection hmc2 with hmc2
      rw [hmc2]
    · intro k v h
      exact lookupV_updateDict_cases O mc.properties k v hnd h

theorem add_configuration_overwrites_existing_witness :
    ∃ c' base,
      (Config.init "m" [("a", Value.str "1")] true "").add_configuration []
          "m" [("b", Value.str "2")] = Except.ok c'
      ∧ (Config.init "m" [("a", Value.str "1")] true
          "").get_master_properties [] = Except.ok base
      ∧ lookupV c'.configs "m" =
          some ⟨"m", updateDict base [("b", Value.str "2")]⟩
      ∧ ((Config.init "m" [("a", Value.str "1")] true "").master_config_name =
            Option.none → base = [])
      ∧ (∀ m mc, (Config.init "m" [("a", Value.str "1")] true
            "").master_config_name = some m →
          lookupV (Config.init "m" [("a", Value.str "1")] true "").configs m =
            some mc → base = mc.properties)
      ∧ (∀ k v, lookupV (updateDict base [("b", Value.str "2")]) k = some v →
          lookupV [("b", Value.str "2")] k = some v ∨
            (lookupV [("b", Value.str "2")] k = Option.none ∧
              lookupV base k = some v)) :=
  add_configuration_overwrites_existing
    (Config.init "m" [("a", Value.str "1")] true "") [] "m"
    [("b", Value.str "2")] ⟨"m", [("a", Value.str "1")]⟩
    (Or.inr ⟨"m", ⟨"m", [("a", Value.str "1")]⟩, rfl, by decide, rfl⟩)
    (by decide) rfl

theorem effective_name_none (c : Config) (environ : Environ)
    (name : Option String)
    (heff : c.effective_name environ name = Option.none) :
    trivialName name = true ∧
      lookupV environ (c.envVarPref ++ "env") = Option.none := by
  rw [Config.effective_name] at heff
  by_cases ht : trivialName name = true
  · rw [if_pos ht] at heff
    exact ⟨ht, heff⟩
  · rw [if_neg ht] at heff
    cases name with
    | none => exact absurd rfl ht
    | some n => exact absurd heff (by simp)

theorem effective_name_some (c : Config) (environ : Environ)
    (name : Option String) (u : String)
    (heff : c.effective_name environ name = some u) :
    c.used_name environ name = Except.ok u := by
  rw [Config.effective_name] at heff
  by_cases ht : trivialName name = true
  · rw [if_pos ht] at heff
    cases name with
    | none =>
      rw [Config.used_name, Config.resolve_default_config_name,
        Config.resolve_property_from_os_env, heff]
    | some n =>
      have hn : n = "" := by simpa [trivialName] using ht
      rw [Config.used_name, if_pos hn, Config.resolve_default_config_name,
        Config.resolve_property_from_os_env, heff]
  · rw [if_neg ht] at heff
    cases name with
    | none => exact absurd rfl ht
    | some n =>
      injection heff with heff
      have hn : ¬(n = "") := by simpa [trivialName] using ht
      rw [Config.used_name, if_neg hn, heff]

theorem used_name_err_of_trivial (c : Config) (environ : Environ)
    (name : Option String) (ht : trivialName name = true)
    (henv : lookupV environ (c.envVarPref ++ "env") = Option.none) :
    ∃ e, c.used_name environ name = Except.error e := by
  cases name with
  | none =>
    rw [Config.used_name, Config.resolve_default_config_name,
      Config.resolve_property_from_os_env, henv]
    exact ⟨_, rfl⟩
  | some n =>
    have hn : n = "" := by simpa [trivialName] using ht
    rw [Config.used_name, if_pos hn, Config.resolve_default_config_name,
      Config.resolve_property_from_os_env, henv]
    exact ⟨_, rfl⟩

/-- Claim C3 (amended): `resolve` raises an error if and only if one of:
(1) the requested name is falsy — not given, or the empty string — and the
environment variable for the default environment name is not set; (2) the
effective target name — the given name when non-falsy, otherwise the value
of that variable — matches no registered environment; (3) some property of
the target environment has the absent-marker value and the environment
variable for that key is not set.  In every other case `resolve` returns a
mapping without error. -/
theorem resolve_error_characterization (c : Config) (environ : Environ)
    (name : Option String) :
    isErr (c.resolve environ name) = true ↔
      (trivialName name = true ∧
        lookupV environ (c.envVarPref ++ "env") = Option.none)
      ∨ (∃ used, c.effective_name environ name = some used ∧
          lookupV c.configs used = Option.none)
      ∨ (∃ used ec, c.effective_name environ name = some used ∧
          lookupV c.configs used = some ec ∧
          ∃ k, (k, Value.none) ∈ ec.properties ∧
            lookupV environ (c.envVarPref ++ k) = Option.none) := by
  rcases heff : c.effective_name environ name with _ | u
  · obtain ⟨ht, henv⟩ := effective_name_none c environ name heff
    obtain ⟨e, hu⟩ := used_name_err_of_trivial c environ name ht henv
    have hres : isErr (c.resolve environ name) = true := by
      rw [Config.resolve, get_env_config_err c environ name e hu]
      rfl
    exact ⟨fun _ => Or.inl ⟨ht, henv⟩, fun _ => hres⟩
  · have hu := effective_name_some c environ name u heff
    have hd1 : ¬(trivialName name = true ∧
        lookupV environ (c.envVarPref ++ "env") = Option.none) := by
      rintro ⟨ht, henv⟩
      rw [Config.effective_name, if_pos ht, henv] at heff
      exact absurd heff (by simp)
    rcases hcfg : lookupV c.configs u with _ | ec
    · have hres : isErr (c.resolve environ name) = true := by
        have hgec : c.get_env_config environ name =
            Except.error ("no such config name: " ++ u) := by
          rw [get_env_config_ok_used c environ name u hu, hcfg]
        rw [Config.resolve, hgec]
        rfl
      exact ⟨fun _ => Or.inr (Or.inl ⟨u, rfl, hcfg⟩), fun _ => hres⟩
    · have hgec : c.get_env_config environ name = Except.ok ec := by
        rw [get_env_config_ok_used c environ name u hu, hcfg]
      have heq : isErr (c.resolve environ name) =
          isErr (c.resolve_props environ ec.properties) := by
        rw [Config.resolve, hgec]
        simp only
        rcases hp : c.resolve_props environ ec.properties with e | props <;> rfl
      rw [heq, resolve_props_err_iff c environ ec.properties]
      constructor
      · intro h
        exact Or.inr (Or.inr ⟨u, ec, rfl, hcfg, h⟩)
      · rintro (⟨ht, henv⟩ | ⟨u2, he2, hc2⟩ | ⟨u2, ec2, he2, hc2, k, hk, henvk⟩)
        · exact absurd ⟨ht, henv⟩ hd1
        · injection he2 with he2
          subst he2
          rw [hcfg] at hc2
          exact absurd hc2 (by simp)
        · injection he2 with he2
          subst he2
          rw [hcfg] at hc2
          injection hc2 with hc2
          subst hc2
          exact ⟨k, hk, henvk⟩

/-- Counterexample to claim C3: an environment name IS given (the empty
string), the given name IS a registered environment, and no property has
the absent-marker value, yet `resolve` raises: the empty given name is
falsy in the source (`name or default`), so the call falls back to the
default-environment variable, which is unset. -/
theorem resolve_error_on_registered_empty_name :
    isErr ((Config.init "" [] true "").resolve [] (some "")) = true
    ∧ lookupV (Config.init "" [] true "").configs "" = some ⟨"", []⟩
    ∧ ∀ kv ∈ ((⟨"", []⟩ : EnvConfig)).properties, kv.2 ≠ Value.none :=
  ⟨rfl, rfl, by simp⟩

theorem resolve_error_characterization_witness :
    isErr ((Config.init "prod" [("a", Value.none)] true "").resolve []
      (some "prod")) = true :=
  (resolve_error_characterization
    (Config.init "prod" [("a", Value.none)] true "") [] (some "prod")).mpr
    (Or.inr (Or.inr ⟨"prod", ⟨"prod", [("a", Value.none)]⟩, rfl, rfl, "a",
      by simp, rfl⟩))
